import Mathlib

/-!
Verification of the diagnostic and reprogramming client in `RFTX_FLASHER.py`
(classes `ISOTPHandler` and `BMWFlasher`).

Shallow embedding conventions, chosen to mirror the Python source faithfully:

* Python `bytes` values become `List Nat`; every constructed header byte is
  `< 256` by construction, payload bytes are only ever copied around.
* Python integer masking translates to arithmetic on `Nat`:
  `x & 0x0F = x % 16`, `x & 0xFF = x % 256`, `x & 0xFFFFFFFF = x % 2^32`,
  `x >> 8 = x / 256`, `x << 1 = x * 2`, and a bit-or packing disjoint bit
  ranges (`0x10 | ((len >> 8) & 0x0F)`) is addition.  Genuine exclusive or
  stays `^^^` (`Nat.xor`).
* `bytes`-returning fallible operations become `Option (List Nat)`; a Python
  `None` is `none`, and an exception caught by the enclosing
  `except ... return None` handler is also modelled as `none`.
* The byte stream read from the serial port is a `List Nat`; successive
  ISO-TP reads made by a retry loop are modelled as a `List (Option (List Nat))`
  (one entry per call to `_receive_isotp`, `none` for a timeout).
-/

/-! ## Constants (module-level constants of `RFTX_FLASHER.py`) -/

def CAN_ID_REQUEST : Nat := 0x6F1
def CAN_ID_RESPONSE : Nat := 0x6F9

def POSITIVE_RESPONSE : Nat := 0x40
def NEGATIVE_RESPONSE : Nat := 0x7F
def NRC_RESPONSE_PENDING : Nat := 0x78

def SESSION_DEFAULT : Nat := 0x01
def SESSION_PROGRAMMING : Nat := 0x02
def SECURITY_LEVEL_PROGRAMMING : Nat := 0x01

def UDS_ROUTINE_CONTROL : Nat := 0x31
def UDS_REQUEST_DOWNLOAD : Nat := 0x34
def UDS_TRANSFER_DATA : Nat := 0x36
def UDS_REQUEST_TRANSFER_EXIT : Nat := 0x37
def KWP_WRITE_MEMORY_BY_ADDRESS : Nat := 0x3D

def ROUTINE_ERASE_MEMORY_SECTOR : Nat := 0xFF02

/-! ## Data model: sectors and memory maps (`ECU_MEMORY_MAPS`) -/

/-- One entry of a memory map's `"sectors"` list.  The Python key
`"protected"` is a Lean keyword, so the field is `protected_flag`. -/
structure Sector where
  name : String
  start : Nat
  size : Nat
  protected_flag : Bool
deriving DecidableEq, Repr

/-- One value of `ECU_MEMORY_MAPS` / `DEFAULT_MEMORY_MAP`. -/
structure MemoryMap where
  flash_start : Nat
  flash_size : Nat
  block_size : Nat
  sectors : List Sector
  protocol : String
  security_algorithm : String
  seed_key_length : Nat
  transfer_size : Nat
  erase_required : Bool
deriving DecidableEq, Repr

/-- `ECU_MEMORY_MAPS["MSD80"]`. -/
def MSD80_MAP : MemoryMap :=
  { flash_start := 0x800000, flash_size := 0x100000, block_size := 0x1000
    sectors :=
      [ ⟨"Bootloader", 0x800000, 0x10000, true⟩,
        ⟨"Calibration", 0x810000, 0x40000, false⟩,
        ⟨"Program", 0x850000, 0xB0000, true⟩ ]
    protocol := "KWP2000", security_algorithm := "xor", seed_key_length := 2
    transfer_size := 0x200, erase_required := true }

/-- `ECU_MEMORY_MAPS["MSD81"]` (identical sectors to MSD80). -/
def MSD81_MAP : MemoryMap := MSD80_MAP

/-- `ECU_MEMORY_MAPS["MEVD17.2"]`. -/
def MEVD17_2_MAP : MemoryMap :=
  { flash_start := 0x800000, flash_size := 0x200000, block_size := 0x1000
    sectors :=
      [ ⟨"Bootloader", 0x800000, 0x10000, true⟩,
        ⟨"Calibration", 0x810000, 0x80000, false⟩,
        ⟨"Program", 0x890000, 0x170000, true⟩ ]
    protocol := "UDS", security_algorithm := "crc", seed_key_length := 4
    transfer_size := 0x800, erase_required := true }

/-- `ECU_MEMORY_MAPS["MG1"]`. -/
def MG1_MAP : MemoryMap :=
  { flash_start := 0x800000, flash_size := 0x100000, block_size := 0x1000
    sectors :=
      [ ⟨"Bootloader", 0x800000, 0x10000, true⟩,
        ⟨"Calibration", 0x810000, 0x30000, false⟩,
        ⟨"Program", 0x840000, 0xC0000, true⟩ ]
    protocol := "UDS", security_algorithm := "crc", seed_key_length := 4
    transfer_size := 0x400, erase_required := true }

/-- `ECU_MEMORY_MAPS["MD1"]` (identical to MG1 except the name key). -/
def MD1_MAP : MemoryMap := MG1_MAP

/-- `DEFAULT_MEMORY_MAP` (identical content to the MSD80 entry). -/
def DEFAULT_MEMORY_MAP : MemoryMap := MSD80_MAP

/-- The address range a sector occupies: `[start, start + size)`. -/
def Sector.contains (s : Sector) (a : Nat) : Prop :=
  s.start ≤ a ∧ a < s.start + s.size

instance (s : Sector) (a : Nat) : Decidable (s.contains a) := by
  unfold Sector.contains; infer_instance

/-- Two sectors occupy disjoint address ranges. -/
def Sector.Disjoint (s t : Sector) : Prop :=
  s.start + s.size ≤ t.start ∨ t.start + t.size ≤ s.start

instance (s t : Sector) : Decidable (s.Disjoint t) := by
  unfold Sector.Disjoint; infer_instance

/-! ## Byte-level helpers -/

/-- `n.to_bytes(4, byteorder='big')` for `n < 2^32`. -/
def be32 (n : Nat) : List Nat :=
  [n / 16777216 % 256, n / 65536 % 256, n / 256 % 256, n % 256]

/-- `struct.unpack(">I", b[:4])[0]`: big-endian 32-bit decode of the first
four bytes. -/
def beUnpack32 (b : List Nat) : Nat :=
  b.getD 0 0 * 16777216 + b.getD 1 0 * 65536 + b.getD 2 0 * 256 + b.getD 3 0

/-! ## Security access key computation (`BMWFlasher._calculate_key`) -/

/-- `BMWFlasher._calculate_key`, `"crc"` branch body: one iteration of
`key = ((key << 1) ^ 0x4C11DB7) & 0xFFFFFFFF` when bit 31 is set, else
`key = (key << 1) & 0xFFFFFFFF`. -/
def crcStep (key : Nat) : Nat :=
  if key / 2 ^ 31 % 2 = 1 then (key * 2 ^^^ 0x4C11DB7) % 2 ^ 32
  else key * 2 % 2 ^ 32

/-- `BMWFlasher._calculate_key`.  The algorithm name is the string taken from
the memory map's `"security_algorithm"` key; an unknown name falls through to
the default branch. -/
def calculate_key (seed : Nat) (algorithm : String) : Nat :=
  if algorithm = "xor" then
    ((seed ^^^ 0x5A3C) + 0x7F1B) % 2 ^ 32
  else if algorithm = "crc" then
    Nat.iterate crcStep 32 seed
  else
    ((seed ^^^ 0xA35C) + 0xF12B) % 2 ^ 32

/-! ## ISO-TP engine (`ISOTPHandler`)

`ISOTPHandler.send` / `_send_single_frame` / `_send_multi_frame` emit a
sequence of 8-byte CAN frames; flow control affects only the pacing and the
waits, never the frame contents, so the pure frame list below is the exact
wire output of the send path. -/

/-- Right-padding with `0x00` to 8 bytes, as in
`frame += b'\x00' * (8 - len(frame))`. -/
def padTo8 (f : List Nat) : List Nat :=
  f ++ List.replicate (8 - f.length) 0

/-- The consecutive frames emitted by the loop in
`ISOTPHandler._send_multi_frame`: byte 0 is `0x20 | (sequence_number & 0x0F)`
(the or packs disjoint bit ranges, hence `0x20 + seq % 16`), then the next
seven payload bytes, padded to 8; the counter updates by
`(sequence_number + 1) & 0x0F`. -/
def consecFrames : Nat → List Nat → List (List Nat)
  | _, [] => []
  | seq, b :: tail =>
    padTo8 ((0x20 + seq % 16) :: (b :: tail).take 7)
      :: consecFrames ((seq + 1) % 16) ((b :: tail).drop 7)
termination_by _ rest => rest.length
decreasing_by simp [List.length_drop]; omega

/-- The frames emitted by `ISOTPHandler.send`: a single frame
`[0x00 | len, data]` padded to 8 for payloads of at most 7 bytes, otherwise a
first frame `[0x10 | ((len >> 8) & 0x0F), len & 0xFF, data[:6]]` followed by
consecutive frames with the sequence counter starting at 1. -/
def isotpSendFrames (data : List Nat) : List (List Nat) :=
  if data.length ≤ 7 then
    [padTo8 (data.length :: data)]
  else
    ((0x10 + data.length / 256 % 16) :: data.length % 256 :: data.take 6)
      :: consecFrames 1 (data.drop 6)

/-- `frame[0] & 0xF0` for a byte `b < 256`: the high nibble shifted back. -/
def frameType (b : Nat) : Nat := b / 16 * 16

/-- The consecutive-frame loop of `ISOTPHandler._receive_isotp`: while the
buffer is shorter than the declared length, read one frame, require type
`0x2N` with `N` equal to the expected sequence, append `cf_frame[1:8]`, and
step the expectation by `(expected + 1) & 0x0F`; at the end return
`response_data[:length]`.  A missing frame (`none` from the CAN read) is a
timeout and yields `none`. -/
def recvConsecutive (frames : List (List Nat)) (expected : Nat) (acc : List Nat)
    (len : Nat) : Option (List Nat) :=
  if len ≤ acc.length then some (acc.take len)
  else
    match frames with
    | [] => none
    | cf :: rest =>
      if frameType (cf.headD 0) ≠ 0x20 then none
      else if cf.headD 0 % 16 ≠ expected then none
      else recvConsecutive rest ((expected + 1) % 16) (acc ++ (cf.drop 1).take 7) len

/-- `ISOTPHandler._receive_isotp` on a list of already-read frames: a single
frame returns `frame[1:1+N]`; a first frame decodes the 12-bit length, seeds
the buffer with `frame[2:8]` (the flow-control frame it transmits back does
not affect reassembly) and runs the consecutive-frame loop; any other frame
type is an error (`none`). -/
def isotpReceive (frames : List (List Nat)) : Option (List Nat) :=
  match frames with
  | [] => none
  | f :: rest =>
    let b0 := f.headD 0
    if frameType b0 = 0x00 then
      some ((f.drop 1).take (b0 % 16))
    else if frameType b0 = 0x10 then
      recvConsecutive rest 1 ((f.drop 2).take 6) ((b0 % 16) * 256 + f.getD 1 0)
    else none

/-! ### Send-path event trace (flow-control behaviour)

For the block-size claim we also need the ordering of sends and
flow-control waits inside `_send_multi_frame`.  `SendEvt.ff` is the first
frame, `SendEvt.fc` is one successful wait for a flow-control frame, and
`SendEvt.cf n` is the consecutive frame carrying sequence number `n`. -/

inductive SendEvt where
  | ff : SendEvt
  | fc : SendEvt
  | cf : Nat → SendEvt
deriving DecidableEq, Repr

/-- The consecutive-frame loop of `_send_multi_frame` as an event trace.
`bs` is the current block size, `fcs` the flow-control frames the peer will
supply at subsequent waits (block size and STmin), `seq` the current
sequence number (always already masked to 4 bits), `rest` the unsent
payload tail.  After sending a frame the code checks
`block_size != 0 and sequence_number % block_size == 0 and data_index < data_length`
with the already-incremented `sequence_number`, and waits for a fresh flow
control when it holds; a missing flow control aborts the send (the trace
simply ends). -/
def multiFrameLoop : Nat → List (Nat × Nat) → Nat → List Nat → List SendEvt
  | _, _, _, [] => []
  | bs, fcs, seq, b :: tail =>
    SendEvt.cf (seq % 16) ::
      (if bs ≠ 0 ∧ (seq + 1) % 16 % bs = 0 ∧ (b :: tail).drop 7 ≠ [] then
        match fcs with
        | [] => []
        | (bs2, _) :: fcs2 =>
          SendEvt.fc :: multiFrameLoop bs2 fcs2 ((seq + 1) % 16) ((b :: tail).drop 7)
      else multiFrameLoop bs fcs ((seq + 1) % 16) ((b :: tail).drop 7))
termination_by _ _ _ rest => rest.length
decreasing_by
  all_goals simp [List.length_drop]; omega

/-- `ISOTPHandler._send_multi_frame` as an event trace: send the first frame,
wait for the initial flow control (its block size seeds the loop; a timeout
aborts), then run the consecutive-frame loop with sequence number 1. -/
def multiFrameTrace (data : List Nat) (fcs : List (Nat × Nat)) : List SendEvt :=
  SendEvt.ff ::
    (match fcs with
    | [] => []
    | (bs, _) :: rest => SendEvt.fc :: multiFrameLoop bs rest 1 (data.drop 6))

/-! ## CAN frame transport (`ISOTPHandler._send_can_frame` / `_receive_can_frame`) -/

/-- `ISOTPHandler._send_can_frame`: the bytes written to the serial port,
`struct.pack(">I", can_id) + bytes([len(data)]) + data`. -/
def sendCanFrameBytes (canId : Nat) (data : List Nat) : List Nat :=
  be32 canId ++ data.length :: data

/-- `ISOTPHandler._receive_can_frame` over a byte stream: read exactly 5
header bytes (shorter is a timeout, `none`), decode the big-endian CAN id and
the DLC, return `none` at once when an expected id is set and the received id
differs, otherwise read exactly `dlc` payload bytes (shorter is a timeout,
`none`). -/
def receive_can_frame (expectedId : Option Nat) (stream : List Nat) : Option (List Nat) :=
  if stream.length < 5 then none
  else
    let canId := beUnpack32 (stream.take 4)
    let dlc := stream.getD 4 0
    if (match expectedId with
        | some e => decide (canId ≠ e)
        | none => false) then none
    else
      let data := (stream.drop 5).take dlc
      if data.length ≠ dlc then none else some data

/-! ## Service dispatcher (`_send_uds_command` / `_send_kwp_command`)

Both functions hand `[service_id, *data]` to ISO-TP and inspect the reply.
Here `first` is the reply `isotp.send` returned and `reads` the results of
the successive `isotp._receive_isotp()` calls the pending loop makes. -/

/-- The response-pending loop inside `_send_uds_command`.  The fuel is
`10 - pending_count`.  Each iteration sleeps 100 ms, re-reads one reply and
then: a `None` or empty reply breaks (returning it); a reply whose first byte
is not `0x7F` breaks; a `0x7F` reply shorter than 3 bytes raises `IndexError`
on `response[2]`, which the enclosing handler turns into `None`; a non-`0x78`
NRC breaks; otherwise the count increments and the loop continues.  Exhausted
fuel returns the last (still pending) reply. -/
def udsPendingLoop : Nat → List (Option (List Nat)) → List Nat → Option (List Nat)
  | 0, _, resp => some resp
  | _ + 1, [], _ => none
  | n + 1, r :: rest, _ =>
    match r with
    | none => none
    | some [] => some []
    | some bytes =>
      if bytes.headD 0 ≠ NEGATIVE_RESPONSE then some bytes
      else if bytes.length < 3 then none
      else if bytes.getD 2 0 ≠ NRC_RESPONSE_PENDING then some bytes
      else udsPendingLoop n rest bytes

/-- `BMWFlasher._send_uds_command`, reply handling: a negative response
(`0x7F`, echoed service id) with NRC `0x78` enters the pending loop with at
most 10 retries; any other reply — including other negative responses, which
are only logged — is returned unchanged. -/
def send_uds_command (service_id : Nat) (first : Option (List Nat))
    (reads : List (Option (List Nat))) : Option (List Nat) :=
  match first with
  | none => none
  | some r =>
    if 3 ≤ r.length ∧ r.headD 0 = NEGATIVE_RESPONSE ∧ r.getD 1 0 = service_id
        ∧ r.getD 2 0 = NRC_RESPONSE_PENDING then
      udsPendingLoop 10 reads r
    else some r

/-- `BMWFlasher._send_kwp_command`, reply handling: a negative response is
only logged; every reply, pending or not, is returned unchanged — the KWP
dispatcher has no retry loop at all. -/
def send_kwp_command (service_id : Nat) (first : Option (List Nat)) : Option (List Nat) :=
  first

/-! ## Flash orchestrator (`BMWFlasher.flash_ecu` and helpers)

`flash_ecu` walks the memory map's sectors, skips protected ones and ones
that start at or beyond the end of the flash file, erases (when
`erase_required`) and then writes each remaining sector in `transfer_size`
blocks.  `Op` records the erase and write requests it dispatches. -/

inductive Op where
  | erase : Nat → Nat → Op
  | write : Nat → List Nat → Op
deriving DecidableEq, Repr

/-- The addresses a dispatched operation targets: `[addr, addr + size)` for
an erase, `[addr, addr + len(data))` for a write. -/
def Op.targets : Op → Nat → Prop
  | .erase a sz, x => a ≤ x ∧ x < a + sz
  | .write a d, x => a ≤ x ∧ x < a + d.length

/-- The per-sector block loop of `flash_ecu`
(`for offset in range(0, len(sector_data), block_size)`): one
`_write_memory(sector_start + offset, sector_data[offset:offset+block_size])`
call per step.  `bs = 0` cannot occur (the registry transfer sizes are
positive; Python `range` would raise). -/
def writeOps (bs addr : Nat) (l : List Nat) : List Op :=
  if bs = 0 ∨ l = [] then []
  else Op.write addr (l.take bs) :: writeOps bs (addr + bs) (l.drop bs)
termination_by l.length
decreasing_by
  simp only [List.length_drop]
  rename_i h
  rw [not_or] at h
  have : 0 < l.length := List.length_pos.mpr h.2
  omega

/-- The slice of the flash file belonging to a sector,
`flash_data[data_start : min(data_end, len(flash_data))]`, right-padded with
`0xFF` to the sector size when shorter
(`sector_data += b'\xFF' * (sector_size - len(sector_data))`). -/
def paddedSectorData (flashStart : Nat) (flashData : List Nat) (s : Sector) : List Nat :=
  let sliced := (flashData.drop (s.start - flashStart)).take s.size
  sliced ++ List.replicate (s.size - sliced.length) 0xFF

/-- One iteration of the sector loop of `flash_ecu`: protected sectors are
skipped, sectors whose `data_start` lies at or beyond the end of the file are
skipped (`if data_start >= len(flash_data): continue`), otherwise the sector
is erased first when `erase_required` and then written block by block. -/
def sectorOps (flashStart : Nat) (eraseRequired : Bool) (bs : Nat)
    (flashData : List Nat) (s : Sector) : List Op :=
  if s.protected_flag then []
  else if flashData.length ≤ s.start - flashStart then []
  else
    (if eraseRequired then [Op.erase s.start s.size] else [])
      ++ writeOps bs s.start (paddedSectorData flashStart flashData s)

/-- All erase and write operations `flash_ecu` dispatches for a memory map
and a flash file.  A file larger than `flash_size` raises `ValueError`
before anything is sent. -/
def flashOps (m : MemoryMap) (flashData : List Nat) : List Op :=
  if m.flash_size < flashData.length then []
  else m.sectors.flatMap (sectorOps m.flash_start m.erase_required m.transfer_size flashData)

/-! ### Erase request encodings (`BMWFlasher._erase_memory_sector`) -/

/-- The KWP2000 erase request: service `0x31` with the local routine id byte
`routine_id = 0x00`, then 4-byte big-endian address and size. -/
def eraseMsgKWP (address size : Nat) : List Nat :=
  0x31 :: 0x00 :: (be32 address ++ be32 size)

/-- The UDS erase request: Routine Control `0x31` with control type `0x01`
(start routine), the 2-byte routine id `ROUTINE_ERASE_MEMORY_SECTOR = 0xFF02`,
then 4-byte big-endian address and size. -/
def eraseMsgUDS (address size : Nat) : List Nat :=
  UDS_ROUTINE_CONTROL :: 0x01 :: 0xFF :: 0x02 :: (be32 address ++ be32 size)

/-- The erase response check shared by both dialects:
`if not response or response[0] != 0x31 + POSITIVE_RESPONSE: return False`
(a `None` and an empty reply are both falsy). -/
def eraseRespOK : Option (List Nat) → Bool
  | none => false
  | some [] => false
  | some (b :: _) => b = 0x31 + POSITIVE_RESPONSE

/-! ### UDS write path (`BMWFlasher._write_memory`, UDS branch) -/

/-- The Request-Download message:
`[0x34, data_fmt=0x00, addr_fmt=0x24, addr:u32_be, size_fmt=0x24, size:u32_be]`. -/
def requestDownloadMsg (address size : Nat) : List Nat :=
  UDS_REQUEST_DOWNLOAD :: 0x00 :: 0x24 :: (be32 address ++ 0x24 :: be32 size)

/-- One Transfer-Data message: `[0x36, seq, block]`. -/
def transferDataMsg (seq : Nat) (block : List Nat) : List Nat :=
  UDS_TRANSFER_DATA :: seq :: block

/-- The Transfer-Data loop of `_write_memory`:
chunks of `bs` bytes, the block sequence counter starting at `seq` and
stepping by `(counter + 1) & 0xFF`. -/
def transferMsgs (bs seq : Nat) (l : List Nat) : List (List Nat) :=
  if bs = 0 ∨ l = [] then []
  else transferDataMsg seq (l.take bs) :: transferMsgs bs ((seq + 1) % 256) (l.drop bs)
termination_by l.length
decreasing_by
  simp only [List.length_drop]
  rename_i h
  rw [not_or] at h
  have : 0 < l.length := List.length_pos.mpr h.2
  omega

/-- `max_block_size` extraction from the Request-Download positive response:
`int.from_bytes(response[2:], 'big')` when the response has at least 3
bytes, `0` otherwise. -/
def maxBlockFromResponse (resp : List Nat) : Nat :=
  if 3 ≤ resp.length then (resp.drop 2).foldl (fun a b => a * 256 + b) 0 else 0

/-- The messages one `_write_memory(address, data)` call sends on the UDS
path: one Request-Download for `(address, len(data))`, then Transfer-Data
chunks of `min(len(data), max_block_size)` bytes (`len(data)` when the ECU
reported 0) with the sequence counter starting at 1, then one
Request-Transfer-Exit. -/
def writeMemoryUDSMsgs (address : Nat) (data : List Nat) (maxBlock : Nat) : List (List Nat) :=
  let bs := min data.length (if 0 < maxBlock then maxBlock else data.length)
  requestDownloadMsg address data.length
    :: (transferMsgs bs 1 data ++ [[UDS_REQUEST_TRANSFER_EXIT]])

/-- The full UDS message trace of one sector of `flash_ecu`: the sector data
is cut into `transfer_size` blocks and `_write_memory` is invoked once per
block (so Request-Download / Transfer-Exit recur per block and the sequence
counter restarts at 1 each time).  `maxBlock` is the max block size the ECU
reports on every Request-Download. -/
def sectorUDSMsgs (bs addr : Nat) (l : List Nat) (maxBlock : Nat) : List (List Nat) :=
  if bs = 0 ∨ l = [] then []
  else writeMemoryUDSMsgs addr (l.take bs) maxBlock
    ++ sectorUDSMsgs bs (addr + bs) (l.drop bs) maxBlock
termination_by l.length
decreasing_by
  simp only [List.length_drop]
  rename_i h
  rw [not_or] at h
  have : 0 < l.length := List.length_pos.mpr h.2
  omega

/-! ### Verification (`BMWFlasher._verify_flash`)

The ECU contents are modelled as a function from address to byte;
`_read_memory(address, size)` returns those `size` bytes. -/

/-- A memory read of `size` bytes starting at `address`. -/
def readMem (mem : Nat → Nat) (address size : Nat) : List Nat :=
  (List.range size).map fun i => mem (address + i)

/-- The per-sector block loop of `_verify_flash`: read back each block and
compare with the expected (padded) bytes; a mismatch fails. -/
def verifySectorBlocks (mem : Nat → Nat) (bs addr : Nat) (l : List Nat) : Bool :=
  if bs = 0 ∨ l = [] then true
  else
    decide (readMem mem addr (l.take bs).length = l.take bs)
      && verifySectorBlocks mem bs (addr + bs) (l.drop bs)
termination_by l.length
decreasing_by
  simp only [List.length_drop]
  rename_i h
  rw [not_or] at h
  have : 0 < l.length := List.length_pos.mpr h.2
  omega

/-- `BMWFlasher._verify_flash`: every sector is handled exactly like in the
write loop — protected sectors and sectors starting at or beyond the end of
the file are skipped, the others are compared in blocks of
`min(transfer_size, 0x1000)` against the same `0xFF`-padded slice. -/
def verifyFlash (mem : Nat → Nat) (m : MemoryMap) (flashData : List Nat) : Bool :=
  m.sectors.all fun s =>
    if s.protected_flag then true
    else if flashData.length ≤ s.start - m.flash_start then true
    else verifySectorBlocks mem (min m.transfer_size 0x1000) s.start
      (paddedSectorData m.flash_start flashData s)

/-! ## Session and security state (`BMWFlasher` attributes)

`BMWFlasher` keeps `session_type` and `security_level` as plain attributes.
`enter_programming_session`, `security_access`, `disconnect` and the body of
`flash_ecu` are the only code touching them; none of the erase / write /
verify helpers does.  The ECU's answers are abstracted as one success flag
per exchange (`sessionOk` for the session-control response, `seedOk` /
`keyOk` for the two security-access steps, `eraseOk` / `writeOk` /
`verifyOk` for the outcome of the respective phase of the sector loop). -/

structure FlasherState where
  session_type : Nat
  security_level : Nat
deriving DecidableEq, Repr

/-- How `flash_ecu` terminates: normally, or with the exception raised by
the corresponding failed phase. -/
inductive FlashOutcome where
  | ok : FlashOutcome
  | sessionError : FlashOutcome
  | securityError : FlashOutcome
  | eraseError : FlashOutcome
  | writeError : FlashOutcome
  | verifyError : FlashOutcome
deriving DecidableEq, Repr

/-- `BMWFlasher.enter_programming_session`: on a positive session-control
response set `session_type = SESSION_PROGRAMMING` and return `True`; on
failure return `False` leaving the state untouched. -/
def enter_programming_session (sessionOk : Bool) (s : FlasherState) :
    Bool × FlasherState :=
  if sessionOk then (true, { s with session_type := SESSION_PROGRAMMING })
  else (false, s)

/-- `BMWFlasher.security_access`: immediately `True` when
`security_level >= SECURITY_LEVEL_PROGRAMMING`; otherwise enter the
programming session first when not in it, request the seed, send the key,
and on success set `security_level = SECURITY_LEVEL_PROGRAMMING`.  Each
failing step returns `False` without further state change. -/
def security_access (sessionOk seedOk keyOk : Bool) (s : FlasherState) :
    Bool × FlasherState :=
  if SECURITY_LEVEL_PROGRAMMING ≤ s.security_level then (true, s)
  else
    let step1 :=
      if s.session_type ≠ SESSION_PROGRAMMING then enter_programming_session sessionOk s
      else (true, s)
    if !step1.1 then (false, step1.2)
    else if !seedOk then (false, step1.2)
    else if keyOk then (true, { step1.2 with security_level := SECURITY_LEVEL_PROGRAMMING })
    else (false, step1.2)

/-- `BMWFlasher.disconnect`: cancel the watchdog, return to the default
session, close the port, and reset `security_level = 0`,
`session_type = SESSION_DEFAULT`. -/
def disconnect (_ : FlasherState) : FlasherState :=
  { session_type := SESSION_DEFAULT, security_level := 0 }

/-- The session/security handling of `BMWFlasher.flash_ecu`: enter the
programming session when necessary (a failure raises), gain security access
when necessary (a failure raises), then run erase, write and verify — whose
helpers never modify `session_type` or `security_level` — raising on the
first failing phase.  No error path restores the session or security
state. -/
def flash_ecu_run (sessionOk seedOk keyOk eraseOk writeOk verifyOk : Bool)
    (s : FlasherState) : FlashOutcome × FlasherState :=
  let step1 :=
    if s.session_type ≠ SESSION_PROGRAMMING then enter_programming_session sessionOk s
    else (true, s)
  if !step1.1 then (FlashOutcome.sessionError, step1.2)
  else
    let step2 :=
      if step1.2.security_level < SECURITY_LEVEL_PROGRAMMING then
        security_access sessionOk seedOk keyOk step1.2
      else (true, step1.2)
    if !step2.1 then (FlashOutcome.securityError, step2.2)
    else if !eraseOk then (FlashOutcome.eraseError, step2.2)
    else if !writeOk then (FlashOutcome.writeError, step2.2)
    else if !verifyOk then (FlashOutcome.verifyError, step2.2)
    else (FlashOutcome.ok, step2.2)

/-- The payload bytes a list of dispatched operations writes, in order
(erases carry no payload). -/
def writtenBytes (ops : List Op) : List Nat :=
  ops.flatMap fun op =>
    match op with
    | .erase _ _ => []
    | .write _ d => d



/-!
# Theorems

General-purpose lemmas first, then one theorem per claim (with witnesses or
counterexamples where required).
-/

/-- The padded sector data always has exactly the sector's size: the slice is
at most `size` bytes and the `0xFF` padding fills the rest. -/
theorem paddedSectorData_length (flashStart : Nat) (flashData : List Nat) (s : Sector) :
    (paddedSectorData flashStart flashData s).length = s.size := by
  simp only [paddedSectorData, List.length_append, List.length_replicate,
    List.length_take, List.length_drop]
  omega

/-- Every address targeted by an operation of `writeOps bs addr l` lies in
`[addr, addr + l.length)`. -/
theorem writeOps_targets : ∀ (n : Nat) (l : List Nat) (bs addr : Nat) (op : Op),
    l.length ≤ n → op ∈ writeOps bs addr l → ∀ x, op.targets x → addr ≤ x ∧ x < addr + l.length := by
  intro n
  induction n with
  | zero =>
    intro l bs addr op h1 h2 x hx
    have hl : l = [] := List.eq_nil_of_length_eq_zero (Nat.le_zero.mp h1)
    subst hl
    simp [writeOps] at h2
  | succ n ih =>
    intro l bs addr op h1 h2 x hx
    by_cases hg : bs = 0 ∨ l = []
    · simp [writeOps, hg] at h2
    · rw [writeOps, if_neg hg] at h2
      rw [not_or] at hg
      obtain ⟨hbs0, hl0⟩ := hg
      rw [List.mem_cons] at h2
      rcases h2 with h2 | h2
      · subst h2
        simp only [Op.targets] at hx
        have : (l.take bs).length ≤ l.length := by simp [List.length_take]
        omega
      · have h0 : 0 < l.length := List.length_pos.mpr hl0
        have hbs : 0 < bs := Nat.pos_of_ne_zero hbs0
        have hlen : (l.drop bs).length ≤ n := by
          simp only [List.length_drop]; omega
        have := ih (l.drop bs) bs (addr + bs) op hlen h2 x hx
        simp only [List.length_drop] at this
        omega

/-- Every operation of `sectorOps` comes from a non-protected sector and
targets only addresses inside that sector's range. -/
theorem sectorOps_targets (flashStart : Nat) (er : Bool) (bs : Nat)
    (flashData : List Nat) (s : Sector) (op : Op)
    (hop : op ∈ sectorOps flashStart er bs flashData s) :
    s.protected_flag = false ∧ ∀ x, op.targets x → s.contains x := by
  unfold sectorOps at hop
  by_cases hp : s.protected_flag
  · simp [hp] at hop
  · refine ⟨by simpa using hp, ?_⟩
    intro x hx
    simp only [hp, if_false] at hop
    by_cases hskip : flashData.length ≤ s.start - flashStart
    · simp [hskip] at hop
    · rw [if_neg hskip] at hop
      rcases List.mem_append.mp hop with h | h
      · rcases er with _ | _
        · simp at h
        · simp at h
          subst h
          simp only [Op.targets] at hx
          exact ⟨hx.1, hx.2⟩
      · have := writeOps_targets (paddedSectorData flashStart flashData s).length
          (paddedSectorData flashStart flashData s) bs s.start op (le_refl _) h x hx
        rw [paddedSectorData_length] at this
        exact this

/-- Membership in `flashOps` factors through some sector of the map. -/
theorem flashOps_mem (m : MemoryMap) (flashData : List Nat) (op : Op)
    (hop : op ∈ flashOps m flashData) :
    ∃ s ∈ m.sectors, op ∈ sectorOps m.flash_start m.erase_required m.transfer_size flashData s := by
  unfold flashOps at hop
  by_cases hg : m.flash_size < flashData.length
  · simp [hg] at hop
  · rw [if_neg hg] at hop
    exact List.mem_flatMap.mp hop

/-- All memory maps of the registry (`ECU_MEMORY_MAPS` and
`DEFAULT_MEMORY_MAP`) have pairwise disjoint sectors. -/
theorem registry_maps_sectors_disjoint :
    ∀ m ∈ [MSD80_MAP, MSD81_MAP, MEVD17_2_MAP, MG1_MAP, MD1_MAP, DEFAULT_MEMORY_MAP],
      m.sectors.Pairwise Sector.Disjoint := by decide

/-- Claim C1: during a flash run, no dispatched write or erase operation
targets an address inside a sector marked protected in the active memory map
(protected sectors are skipped before any erase or write), for any memory map
whose sectors are pairwise disjoint — which holds for every map of the
registry. -/
theorem c1_no_protected_sector_targeted (m : MemoryMap) (flashData : List Nat)
    (hdisj : m.sectors.Pairwise Sector.Disjoint) :
    ∀ op ∈ flashOps m flashData, ∀ s ∈ m.sectors, s.protected_flag = true →
      ∀ x, Op.targets op x → ¬ s.contains x := by
  intro op hop s hs hsp x hx hc
  obtain ⟨t, ht, hopt⟩ := flashOps_mem m flashData op hop
  obtain ⟨htp, htc⟩ := sectorOps_targets m.flash_start m.erase_required m.transfer_size
    flashData t op hopt
  have hxt : t.contains x := htc x hx
  obtain ⟨i, hi⟩ := List.mem_iff_get.mp hs
  obtain ⟨j, hj⟩ := List.mem_iff_get.mp ht
  have hR := List.pairwise_iff_get.mp hdisj
  rcases lt_trichotomy i j with hij | hij | hij
  · have hd := hR i j hij
    rw [hi, hj] at hd
    unfold Sector.Disjoint at hd
    unfold Sector.contains at hc hxt
    omega
  · have hst : s = t := by rw [← hi, ← hj, hij]
    rw [hst, htp] at hsp
    exact Bool.false_ne_true hsp
  · have hd := hR j i hij
    rw [hi, hj] at hd
    unfold Sector.Disjoint at hd
    unfold Sector.contains at hc hxt
    omega

/-- Witness for C1: the MSD80 map satisfies the disjointness hypothesis, and
the conclusion holds for it on a concrete one-byte flash file. -/
theorem c1_no_protected_sector_targeted_witness :
    MSD80_MAP.sectors.Pairwise Sector.Disjoint
    ∧ (∀ op ∈ flashOps MSD80_MAP [0x42], ∀ s ∈ MSD80_MAP.sectors, s.protected_flag = true →
        ∀ x, Op.targets op x → ¬ s.contains x) :=
  ⟨by decide, c1_no_protected_sector_targeted MSD80_MAP [0x42] (by decide)⟩

/-- Claim C9: the xor security-access key is
`((seed ^ 0x5A3C) + 0x7F1B) mod 2^32` for every seed, and the crc
security-access key of seed 0 is 0. -/
theorem c9_security_key_algorithms :
    (∀ seed : Nat, calculate_key seed "xor" = ((seed ^^^ 0x5A3C) + 0x7F1B) % 2 ^ 32)
    ∧ calculate_key 0 "crc" = 0 := by
  constructor
  · intro seed
    rfl
  · rfl

/-- Big-endian encode and decode of a 32-bit value are inverse. -/
theorem beUnpack32_be32 (n : Nat) (h : n < 2 ^ 32) : beUnpack32 (be32 n) = n := by
  simp only [beUnpack32, be32, List.getD_cons_zero, List.getD_cons_succ]
  omega

/-- Claim C10: while a response frame is awaited, a CAN frame whose id
differs from the expected response id makes the frame read fail immediately
(`None`), regardless of what follows in the stream — one interleaved frame
from another id aborts the exchange. -/
theorem c10_unexpected_can_id_aborts (canId e : Nat) (data rest : List Nat)
    (hid : canId < 2 ^ 32) (hne : canId ≠ e) :
    receive_can_frame (some e) (sendCanFrameBytes canId data ++ rest) = none := by
  unfold receive_can_frame sendCanFrameBytes
  have h4 : (be32 canId).length = 4 := by simp [be32]
  rw [List.append_assoc]
  have hlen : (be32 canId ++ (data.length :: data ++ rest)).length =
      5 + data.length + rest.length := by
    simp only [List.length_append, List.length_cons, h4]
    omega
  rw [if_neg (by omega)]
  have htake : (be32 canId ++ (data.length :: data ++ rest)).take 4 = be32 canId := by
    rw [List.take_append_eq_append_take, h4]
    simp [h4]
  rw [htake, beUnpack32_be32 canId hid]
  simp [hne]

/-- Witness for C10: a frame with id 0x600 while 0x6F9 is expected is
rejected. -/
theorem c10_unexpected_can_id_aborts_witness :
    receive_can_frame (some CAN_ID_RESPONSE) (sendCanFrameBytes 0x600 [1, 2, 3] ++ [9, 9]) = none :=
  c10_unexpected_can_id_aborts 0x600 CAN_ID_RESPONSE [1, 2, 3] [9, 9] (by decide) (by decide)

/-- Exhausted retries: reading the same pending reply `fuel` times returns
that (still pending) final reply. -/
theorem udsPendingLoop_exhaust (sid : Nat) (tl : List Nat) :
    ∀ fuel : Nat,
      udsPendingLoop fuel
        (List.replicate fuel (some (NEGATIVE_RESPONSE :: sid :: NRC_RESPONSE_PENDING :: tl)))
        (NEGATIVE_RESPONSE :: sid :: NRC_RESPONSE_PENDING :: tl)
      = some (NEGATIVE_RESPONSE :: sid :: NRC_RESPONSE_PENDING :: tl) := by
  intro fuel
  induction fuel with
  | zero => rfl
  | succ n ih =>
    rw [List.replicate_succ]
    simp only [udsPendingLoop, NEGATIVE_RESPONSE, NRC_RESPONSE_PENDING,
      List.headD, List.getD_cons_zero, List.getD_cons_succ, List.length_cons]
    rw [if_neg (by omega), if_neg (by omega), if_neg (by omega)]
    exact ih

/-- A non-pending reply after `k` pending re-reads breaks the loop and is
returned, provided the fuel suffices. -/
theorem udsPendingLoop_break (sid : Nat) (tl final : List Nat) (hfinal : final ≠ [])
    (hbrk : final.headD 0 ≠ NEGATIVE_RESPONSE
      ∨ (3 ≤ final.length ∧ final.getD 2 0 ≠ NRC_RESPONSE_PENDING)) :
    ∀ (k fuel : Nat), k < fuel → ∀ rest,
      udsPendingLoop fuel
        (List.replicate k (some (NEGATIVE_RESPONSE :: sid :: NRC_RESPONSE_PENDING :: tl))
          ++ some final :: rest)
        (NEGATIVE_RESPONSE :: sid :: NRC_RESPONSE_PENDING :: tl)
      = some final := by
  intro k
  induction k with
  | zero =>
    intro fuel hf rest
    obtain ⟨m, rfl⟩ : ∃ m, fuel = m + 1 := ⟨fuel - 1, by omega⟩
    simp only [List.replicate_zero, List.nil_append]
    rcases final with _ | ⟨f0, ftl⟩
    · exact absurd rfl hfinal
    · simp only [List.headD, List.length_cons, List.getD] at hbrk
      rcases hbrk with hb | hb
      · simp only [udsPendingLoop]
        rw [if_pos (by simpa using hb)]
      · by_cases hf0 : f0 = NEGATIVE_RESPONSE
        · simp only [udsPendingLoop]
          rw [if_neg (by simp [hf0]), if_neg (by simp; omega), if_pos (by simpa using hb.2)]
        · simp only [udsPendingLoop]
          rw [if_pos (by simpa using hf0)]
  | succ k ih =>
    intro fuel hf rest
    obtain ⟨m, rfl⟩ : ∃ m, fuel = m + 1 := ⟨fuel - 1, by omega⟩
    rw [List.replicate_succ, List.cons_append]
    simp only [udsPendingLoop, NEGATIVE_RESPONSE, NRC_RESPONSE_PENDING,
      List.headD, List.getD_cons_zero, List.getD_cons_succ, List.length_cons]
    rw [if_neg (by omega), if_neg (by omega), if_neg (by omega)]
    exact ih m (by omega) rest

/-- Claim C4 (amended): only the UDS dispatcher retries on NRC `0x78` — it
re-reads up to 10 times (with 100 ms pauses) until a different reply arrives,
returning that reply, and returns the last pending reply once the 10 retries
are exhausted; the KWP dispatcher has no retry at all and returns every
reply, pending included, unchanged. -/
theorem c4_pending_retry_uds_only (sid k : Nat) (tl final : List Nat) (hk : k ≤ 9)
    (hfinal : final ≠ [])
    (hbrk : final.headD 0 ≠ NEGATIVE_RESPONSE
      ∨ (3 ≤ final.length ∧ final.getD 2 0 ≠ NRC_RESPONSE_PENDING)) :
    send_uds_command sid (some (NEGATIVE_RESPONSE :: sid :: NRC_RESPONSE_PENDING :: tl))
        (List.replicate k (some (NEGATIVE_RESPONSE :: sid :: NRC_RESPONSE_PENDING :: tl))
          ++ [some final])
      = some final
    ∧ send_uds_command sid (some (NEGATIVE_RESPONSE :: sid :: NRC_RESPONSE_PENDING :: tl))
        (List.replicate 10 (some (NEGATIVE_RESPONSE :: sid :: NRC_RESPONSE_PENDING :: tl)))
      = some (NEGATIVE_RESPONSE :: sid :: NRC_RESPONSE_PENDING :: tl)
    ∧ send_kwp_command sid (some (NEGATIVE_RESPONSE :: sid :: NRC_RESPONSE_PENDING :: tl))
      = some (NEGATIVE_RESPONSE :: sid :: NRC_RESPONSE_PENDING :: tl) := by
  refine ⟨?_, ?_, rfl⟩
  · have hcond : 3 ≤ (NEGATIVE_RESPONSE :: sid :: NRC_RESPONSE_PENDING :: tl).length := by
      simp
    simp only [send_uds_command]
    rw [if_pos ⟨hcond, rfl, rfl, rfl⟩]
    exact udsPendingLoop_break sid tl final hfinal hbrk k 10 (by omega) []
  · have hcond : 3 ≤ (NEGATIVE_RESPONSE :: sid :: NRC_RESPONSE_PENDING :: tl).length := by
      simp
    simp only [send_uds_command]
    rw [if_pos ⟨hcond, rfl, rfl, rfl⟩]
    exact udsPendingLoop_exhaust sid tl 10

/-- Witness for C4 (amended), at service 0x34 with three pending re-reads
followed by a positive reply. -/
theorem c4_pending_retry_uds_only_witness :
    send_uds_command 0x34 (some (NEGATIVE_RESPONSE :: 0x34 :: NRC_RESPONSE_PENDING :: []))
        (List.replicate 3 (some (NEGATIVE_RESPONSE :: 0x34 :: NRC_RESPONSE_PENDING :: []))
          ++ [some [0x74]])
      = some [0x74]
    ∧ send_uds_command 0x34 (some (NEGATIVE_RESPONSE :: 0x34 :: NRC_RESPONSE_PENDING :: []))
        (List.replicate 10 (some (NEGATIVE_RESPONSE :: 0x34 :: NRC_RESPONSE_PENDING :: [])))
      = some (NEGATIVE_RESPONSE :: 0x34 :: NRC_RESPONSE_PENDING :: [])
    ∧ send_kwp_command 0x34 (some (NEGATIVE_RESPONSE :: 0x34 :: NRC_RESPONSE_PENDING :: []))
      = some (NEGATIVE_RESPONSE :: 0x34 :: NRC_RESPONSE_PENDING :: []) :=
  c4_pending_retry_uds_only 0x34 3 [] [0x74] (by omega) (by decide) (Or.inl (by decide))

/-- Counterexample for C4 as stated: on the very same pending-then-positive
reply stream the UDS dispatcher returns the positive reply while the KWP
dispatcher returns the pending negative response — the two dialects do not
have identical retry behaviour. -/
theorem c4_counterexample :
    send_kwp_command 0x34 (some [0x7F, 0x34, 0x78]) = some [0x7F, 0x34, 0x78]
    ∧ send_uds_command 0x34 (some [0x7F, 0x34, 0x78]) [some [0x74, 0x40, 0x08, 0x00]]
        = some [0x74, 0x40, 0x08, 0x00]
    ∧ some [0x7F, 0x34, 0x78] ≠ some [0x74, 0x40, 0x08, 0x00] := by
  refine ⟨rfl, by decide, by decide⟩

/-- Claim C5 (amended): after any `disconnect` the session is the default
one (hence not Programming) and the security level is 0 (Locked); but the
error paths of `flash_ecu` perform no cleanup of their own — a failure
before the programming session was entered leaves the state untouched, while
a failure after session entry and security access (for example a failed
erase) leaves the connection in the Programming session with security still
unlocked until `disconnect` runs. -/
theorem c5_disconnect_resets_flash_errors_do_not :
    (∀ s : FlasherState,
      (disconnect s).session_type ≠ SESSION_PROGRAMMING ∧ (disconnect s).security_level = 0)
    ∧ (∀ (s : FlasherState) (seedOk keyOk eraseOk writeOk verifyOk : Bool),
        s.session_type ≠ SESSION_PROGRAMMING →
        flash_ecu_run false seedOk keyOk eraseOk writeOk verifyOk s
          = (FlashOutcome.sessionError, s))
    ∧ (∀ (s : FlasherState) (writeOk verifyOk : Bool),
        (flash_ecu_run true true true false writeOk verifyOk s).1 = FlashOutcome.eraseError
        ∧ (flash_ecu_run true true true false writeOk verifyOk s).2.session_type
            = SESSION_PROGRAMMING
        ∧ SECURITY_LEVEL_PROGRAMMING
            ≤ (flash_ecu_run true true true false writeOk verifyOk s).2.security_level) := by
  refine ⟨?_, ?_, ?_⟩
  · intro s
    simp [disconnect, SESSION_DEFAULT, SESSION_PROGRAMMING]
  · intro s seedOk keyOk eraseOk writeOk verifyOk h
    simp [flash_ecu_run, enter_programming_session, h]
  · intro s writeOk verifyOk
    simp only [SESSION_PROGRAMMING, SECURITY_LEVEL_PROGRAMMING]
    by_cases h2 : 1 ≤ s.security_level
    · have h2' : ¬s.security_level < 1 := by omega
      by_cases h1 : s.session_type = 2 <;>
        simp [flash_ecu_run, enter_programming_session, security_access,
          SESSION_PROGRAMMING, SECURITY_LEVEL_PROGRAMMING, h1, h2, h2']
    · have h2' : s.security_level < 1 := by omega
      by_cases h1 : s.session_type = 2 <;>
        simp [flash_ecu_run, enter_programming_session, security_access,
          SESSION_PROGRAMMING, SECURITY_LEVEL_PROGRAMMING, h1, h2, h2']

/-- Witness for C5 (amended), instantiated at concrete states. -/
theorem c5_disconnect_resets_flash_errors_do_not_witness :
    ((disconnect ⟨SESSION_PROGRAMMING, 5⟩).session_type ≠ SESSION_PROGRAMMING
      ∧ (disconnect ⟨SESSION_PROGRAMMING, 5⟩).security_level = 0)
    ∧ flash_ecu_run false true true true true true ⟨SESSION_DEFAULT, 0⟩
        = (FlashOutcome.sessionError, ⟨SESSION_DEFAULT, 0⟩)
    ∧ ((flash_ecu_run true true true false true true ⟨SESSION_DEFAULT, 0⟩).1
          = FlashOutcome.eraseError
      ∧ (flash_ecu_run true true true false true true ⟨SESSION_DEFAULT, 0⟩).2.session_type
          = SESSION_PROGRAMMING
      ∧ SECURITY_LEVEL_PROGRAMMING
          ≤ (flash_ecu_run true true true false true true ⟨SESSION_DEFAULT, 0⟩).2.security_level) :=
  ⟨c5_disconnect_resets_flash_errors_do_not.1 ⟨SESSION_PROGRAMMING, 5⟩,
   c5_disconnect_resets_flash_errors_do_not.2.1 ⟨SESSION_DEFAULT, 0⟩ true true true true true
     (by decide),
   c5_disconnect_resets_flash_errors_do_not.2.2 ⟨SESSION_DEFAULT, 0⟩ true true⟩

/-- Counterexample for C5 as stated: a failed erase inside `flash_ecu`
(after session entry and security access succeeded) ends with the session
still Programming and the security level non-zero, contradicting the claim
that every error path of the flash operation leaves a non-Programming
session and a Locked security state. -/
theorem c5_counterexample :
    (flash_ecu_run true true true false true true ⟨SESSION_DEFAULT, 0⟩).1
        = FlashOutcome.eraseError
    ∧ (flash_ecu_run true true true false true true ⟨SESSION_DEFAULT, 0⟩).2.session_type
        = SESSION_PROGRAMMING
    ∧ (flash_ecu_run true true true false true true ⟨SESSION_DEFAULT, 0⟩).2.security_level
        ≠ 0 := by decide

/-- Claim C3 (amended): when `erase_required` is set, every non-skipped,
non-protected sector is erased — with a Routine Control (0x31) request and
`[start:u32_be, size:u32_be]` arguments — before any write to it, and
proceeding requires a positive (0x71) response; but the routine id differs
per dialect: the UDS request carries control type 0x01 and routine id
`0xFF02`, while the KWP2000 request carries the single routine id byte
`0x00`, not `0xFF02`. -/
theorem c3_erase_routine_per_dialect (fs bs : Nat) (flashData : List Nat) (s : Sector)
    (hp : s.protected_flag = false) (hin : s.start - fs < flashData.length) :
    sectorOps fs true bs flashData s
      = Op.erase s.start s.size :: writeOps bs s.start (paddedSectorData fs flashData s)
    ∧ (∀ a sz, eraseMsgUDS a sz
        = UDS_ROUTINE_CONTROL :: 0x01 :: (ROUTINE_ERASE_MEMORY_SECTOR / 256)
            :: (ROUTINE_ERASE_MEMORY_SECTOR % 256) :: (be32 a ++ be32 sz))
    ∧ (∀ a sz, eraseMsgKWP a sz = 0x31 :: 0x00 :: (be32 a ++ be32 sz))
    ∧ (∀ r, eraseRespOK r = true ↔ ∃ rest, r = some ((0x31 + POSITIVE_RESPONSE) :: rest)) := by
  refine ⟨?_, fun a sz => rfl, fun a sz => rfl, ?_⟩
  · unfold sectorOps
    rw [if_neg (by simp [hp]), if_neg (by omega)]
    rfl
  · intro r
    constructor
    · intro h
      match r with
      | none => exact absurd h (by simp [eraseRespOK])
      | some [] => exact absurd h (by simp [eraseRespOK])
      | some (b :: rest) =>
        simp only [eraseRespOK, decide_eq_true_eq] at h
        exact ⟨rest, by rw [h]⟩
    · rintro ⟨rest, rfl⟩
      simp [eraseRespOK]

/-- Witness for C3 (amended): a concrete non-protected sector starting
inside the file is erased first, and the erase-response check accepts a
0x71 reply. -/
theorem c3_erase_routine_per_dialect_witness :
    sectorOps 0 true 2 [9] ⟨"s", 0, 3, false⟩
      = Op.erase 0 3 :: writeOps 2 0 (paddedSectorData 0 [9] ⟨"s", 0, 3, false⟩)
    ∧ (∀ a sz, eraseMsgUDS a sz
        = UDS_ROUTINE_CONTROL :: 0x01 :: (ROUTINE_ERASE_MEMORY_SECTOR / 256)
            :: (ROUTINE_ERASE_MEMORY_SECTOR % 256) :: (be32 a ++ be32 sz))
    ∧ (∀ a sz, eraseMsgKWP a sz = 0x31 :: 0x00 :: (be32 a ++ be32 sz))
    ∧ (∀ r, eraseRespOK r = true ↔ ∃ rest, r = some ((0x31 + POSITIVE_RESPONSE) :: rest)) :=
  c3_erase_routine_per_dialect 0 2 [9] ⟨"s", 0, 3, false⟩ rfl (by decide)

/-- Counterexample for C3 as stated: the KWP2000 erase request for the
4 KiB sector at 0x810000 carries routine id byte 0x00 and contains no 0xFF
byte at all, so it does not carry the erase-sector routine id 0xFF02 the
claim asserts for both dialects. -/
theorem c3_counterexample :
    eraseMsgKWP 0x810000 0x1000
      = [0x31, 0x00, 0x00, 0x81, 0x00, 0x00, 0x00, 0x00, 0x10, 0x00]
    ∧ ((eraseMsgKWP 0x810000 0x1000).all fun b => b ≠ 0xFF)
    ∧ eraseMsgKWP 0x810000 0x1000 ≠ eraseMsgUDS 0x810000 0x1000 := by decide

/-- Every message of the Transfer-Data loop starts with service byte 0x36. -/
theorem transferMsgs_head : ∀ (n : Nat) (l : List Nat) (bs seq : Nat) (msg : List Nat),
    l.length ≤ n → msg ∈ transferMsgs bs seq l → msg.headD 0 = UDS_TRANSFER_DATA := by
  intro n
  induction n with
  | zero =>
    intro l bs seq msg h1 h2
    have hl : l = [] := List.eq_nil_of_length_eq_zero (Nat.le_zero.mp h1)
    subst hl
    simp [transferMsgs] at h2
  | succ n ih =>
    intro l bs seq msg h1 h2
    by_cases hg : bs = 0 ∨ l = []
    · simp [transferMsgs, hg] at h2
    · rw [transferMsgs, if_neg hg] at h2
      rw [not_or] at hg
      rw [List.mem_cons] at h2
      rcases h2 with h2 | h2
      · subst h2; rfl
      · have h0 : 0 < l.length := List.length_pos.mpr hg.2
        have hbs : 0 < bs := Nat.pos_of_ne_zero hg.1
        exact ih (l.drop bs) bs ((seq + 1) % 256) msg (by simp [List.length_drop]; omega) h2

/-- The `j`-th message of the Transfer-Data loop carries service byte 0x36
and sequence counter `(seq + j) % 256`. -/
theorem transferMsgs_seq : ∀ (n : Nat) (l : List Nat) (bs seq j : Nat) (msg : List Nat),
    l.length ≤ n → seq < 256 → (transferMsgs bs seq l)[j]? = some msg →
    msg.headD 0 = UDS_TRANSFER_DATA ∧ msg.getD 1 0 = (seq + j) % 256 := by
  intro n
  induction n with
  | zero =>
    intro l bs seq j msg h1 h2 h3
    have hl : l = [] := List.eq_nil_of_length_eq_zero (Nat.le_zero.mp h1)
    subst hl
    simp [transferMsgs] at h3
  | succ n ih =>
    intro l bs seq j msg h1 h2 h3
    by_cases hg : bs = 0 ∨ l = []
    · simp [transferMsgs, hg] at h3
    · rw [transferMsgs, if_neg hg] at h3
      rw [not_or] at hg
      have h0 : 0 < l.length := List.length_pos.mpr hg.2
      have hbs : 0 < bs := Nat.pos_of_ne_zero hg.1
      match j with
      | 0 =>
        rw [List.getElem?_cons_zero] at h3
        cases h3
        refine ⟨rfl, ?_⟩
        simp only [transferDataMsg, List.getD_cons_succ, List.getD_cons_zero]
        omega
      | j + 1 =>
        rw [List.getElem?_cons_succ] at h3
        have := ih (l.drop bs) bs ((seq + 1) % 256) j msg
          (by simp [List.length_drop]; omega) (by omega) h3
        refine ⟨this.1, ?_⟩
        rw [this.2]
        omega

/-- Claim C2 (amended): the Request-Download / Transfer-Data / Transfer-Exit
cycle happens once per `_write_memory` invocation, i.e. once per
`transfer_size` block of the sector, not once per sector.  Within one
invocation: Request-Download with
`[data_fmt=0x00, addr_fmt=0x24, addr:u32_be, size_fmt=0x24, size:u32_be]`
is the first message and occurs exactly once, the ECU's max block size is
read from its positive response, the Transfer-Data messages carry a sequence
counter that starts at 1 and wraps mod 256 within the invocation, and
Request-Transfer-Exit is the last message and occurs exactly once. -/
theorem c2_request_download_per_block (address : Nat) (data : List Nat) (maxBlock : Nat)
    (hd : data ≠ []) :
    (writeMemoryUDSMsgs address data maxBlock).headD []
      = requestDownloadMsg address data.length
    ∧ (writeMemoryUDSMsgs address data maxBlock).countP
        (fun msg => msg.headD 0 = UDS_REQUEST_DOWNLOAD) = 1
    ∧ (writeMemoryUDSMsgs address data maxBlock).countP
        (fun msg => msg.headD 0 = UDS_REQUEST_TRANSFER_EXIT) = 1
    ∧ (writeMemoryUDSMsgs address data maxBlock).getLast? = some [UDS_REQUEST_TRANSFER_EXIT]
    ∧ (∀ j msg,
        (transferMsgs (min data.length (if 0 < maxBlock then maxBlock else data.length))
          1 data)[j]? = some msg →
        msg.headD 0 = UDS_TRANSFER_DATA ∧ msg.getD 1 0 = (1 + j) % 256) := by
  have htr : ∀ msg ∈ transferMsgs
      (min data.length (if 0 < maxBlock then maxBlock else data.length)) 1 data,
      msg.headD 0 = UDS_TRANSFER_DATA :=
    fun msg hm => transferMsgs_head data.length data _ 1 msg (le_refl _) hm
  refine ⟨rfl, ?_, ?_, ?_, ?_⟩
  · unfold writeMemoryUDSMsgs
    rw [List.countP_cons_of_pos _ _ (by simp [requestDownloadMsg]), List.countP_append]
    rw [List.countP_eq_zero.mpr (fun msg hm => by
      have h := htr msg hm
      rw [List.headD_eq_head?_getD] at h
      simp [h, UDS_TRANSFER_DATA, UDS_REQUEST_DOWNLOAD])]
    simp [UDS_REQUEST_TRANSFER_EXIT, UDS_REQUEST_DOWNLOAD]
  · unfold writeMemoryUDSMsgs
    rw [List.countP_cons_of_neg _ _ (by simp [requestDownloadMsg, UDS_REQUEST_DOWNLOAD,
      UDS_REQUEST_TRANSFER_EXIT]), List.countP_append]
    rw [List.countP_eq_zero.mpr (fun msg hm => by
      have h := htr msg hm
      rw [List.headD_eq_head?_getD] at h
      simp [h, UDS_TRANSFER_DATA, UDS_REQUEST_TRANSFER_EXIT])]
    simp
  · unfold writeMemoryUDSMsgs
    rw [← List.cons_append, List.getLast?_concat]
  · intro j msg h
    exact transferMsgs_seq data.length data _ 1 j msg (le_refl _) (by omega) h

/-- Witness for C2 (amended), at a concrete 3-byte block with an ECU max
block size of 2. -/
theorem c2_request_download_per_block_witness :
    (writeMemoryUDSMsgs 0 [7, 8, 9] 2).headD [] = requestDownloadMsg 0 3
    ∧ (writeMemoryUDSMsgs 0 [7, 8, 9] 2).countP
        (fun msg => msg.headD 0 = UDS_REQUEST_DOWNLOAD) = 1
    ∧ (writeMemoryUDSMsgs 0 [7, 8, 9] 2).countP
        (fun msg => msg.headD 0 = UDS_REQUEST_TRANSFER_EXIT) = 1
    ∧ (writeMemoryUDSMsgs 0 [7, 8, 9] 2).getLast? = some [UDS_REQUEST_TRANSFER_EXIT]
    ∧ (∀ j msg,
        (transferMsgs (min (List.length [7, 8, 9]) (if 0 < 2 then 2 else List.length [7, 8, 9]))
          1 [7, 8, 9])[j]? = some msg →
        msg.headD 0 = UDS_TRANSFER_DATA ∧ msg.getD 1 0 = (1 + j) % 256) :=
  c2_request_download_per_block 0 [7, 8, 9] 2 (by decide)

/-- Counterexample for C2 as stated: a 4-byte sector written with
`transfer_size = 2` produces two complete Request-Download / Transfer-Data /
Transfer-Exit cycles — Request-Download is sent twice for the one sector,
not once, and the second cycle's Transfer-Data sequence counter restarts at
1 instead of continuing across the sector. -/
theorem c2_counterexample :
    sectorUDSMsgs 2 4 [1, 2, 3, 4] 0
      = [requestDownloadMsg 4 2, transferDataMsg 1 [1, 2], [UDS_REQUEST_TRANSFER_EXIT],
         requestDownloadMsg 6 2, transferDataMsg 1 [3, 4], [UDS_REQUEST_TRANSFER_EXIT]]
    ∧ (sectorUDSMsgs 2 4 [1, 2, 3, 4] 0).countP
        (fun msg => msg.headD 0 = UDS_REQUEST_DOWNLOAD) = 2
    ∧ (2 : Nat) ≠ 1 := by
  have h : sectorUDSMsgs 2 4 [1, 2, 3, 4] 0
      = [requestDownloadMsg 4 2, transferDataMsg 1 [1, 2], [UDS_REQUEST_TRANSFER_EXIT],
         requestDownloadMsg 6 2, transferDataMsg 1 [3, 4], [UDS_REQUEST_TRANSFER_EXIT]] := by
    simp [sectorUDSMsgs, writeMemoryUDSMsgs, transferMsgs, requestDownloadMsg, transferDataMsg]
  refine ⟨h, ?_, by decide⟩
  rw [h]
  decide

/-- Claim C7 (amended): the sender waits for a new flow control immediately
before a consecutive frame whose (4-bit-wrapped, already incremented)
sequence number is divisible by the block size while data remains — not
after every `block_size` frames.  With block size 2 this means a wait after
the first consecutive frame: a 20-byte payload produces First Frame, flow
control, one CF (seq 1), flow control, one more CF (seq 2); and for any
payload needing at least two consecutive frames the second flow-control wait
comes after a single consecutive frame. -/
theorem c7_flow_control_after_first_cf :
    multiFrameTrace [0, 1, 2, 3, 4, 5, 6, 7, 8, 9, 10, 11, 12, 13, 14, 15, 16, 17, 18, 19]
        [(2, 10), (2, 10)]
      = [SendEvt.ff, SendEvt.fc, SendEvt.cf 1, SendEvt.fc, SendEvt.cf 2]
    ∧ (∀ (data : List Nat) (fcs : List (Nat × Nat)), 13 < data.length →
        ∃ t, multiFrameTrace data ((2, 0) :: (2, 0) :: fcs)
          = SendEvt.ff :: SendEvt.fc :: SendEvt.cf 1 :: SendEvt.fc :: t) := by
  constructor
  · simp [multiFrameTrace, multiFrameLoop]
  · intro data fcs h
    unfold multiFrameTrace
    have h6 : (data.drop 6).length = data.length - 6 := by simp
    rcases hd : data.drop 6 with _ | ⟨b, tail⟩
    · rw [hd] at h6
      simp at h6
      omega
    · have htail : tail.length = data.length - 7 := by
        rw [hd] at h6
        simp at h6
        omega
      have h7 : (b :: tail).drop 7 ≠ [] := by
        have : ((b :: tail).drop 7).length = data.length - 13 := by
          simp [htail]
          omega
        intro hnil
        rw [hnil] at this
        simp at this
        omega
      refine ⟨multiFrameLoop 2 fcs ((1 + 1) % 16) ((b :: tail).drop 7), ?_⟩
      show SendEvt.ff :: SendEvt.fc :: multiFrameLoop 2 ((2, 0) :: fcs) 1 (b :: tail) = _
      rw [multiFrameLoop]
      rw [if_pos ⟨by omega, by omega, h7⟩]

/-- Witness for C7 (amended): the concrete 20-byte payload discharges the
length hypothesis of the general part. -/
theorem c7_flow_control_after_first_cf_witness :
    ∃ t, multiFrameTrace [0, 1, 2, 3, 4, 5, 6, 7, 8, 9, 10, 11, 12, 13, 14, 15, 16, 17, 18, 19]
        ((2, 0) :: (2, 0) :: [])
      = SendEvt.ff :: SendEvt.fc :: SendEvt.cf 1 :: SendEvt.fc :: t :=
  c7_flow_control_after_first_cf.2
    [0, 1, 2, 3, 4, 5, 6, 7, 8, 9, 10, 11, 12, 13, 14, 15, 16, 17, 18, 19] [] (by decide)

/-- Counterexample for C7 as stated: with block size 2 and a 20-byte payload
the wire sequence is FF, FC, one CF, FC, one CF — not FF, FC, two CFs, FC —
because the wait condition `sequence_number % block_size == 0` tests the
already-incremented counter, so the first wait happens after a single
consecutive frame. -/
theorem c7_counterexample :
    multiFrameTrace [0, 1, 2, 3, 4, 5, 6, 7, 8, 9, 10, 11, 12, 13, 14, 15, 16, 17, 18, 19]
        [(2, 10), (2, 10)]
      ≠ [SendEvt.ff, SendEvt.fc, SendEvt.cf 1, SendEvt.cf 2] := by
  have h : multiFrameTrace [0, 1, 2, 3, 4, 5, 6, 7, 8, 9, 10, 11, 12, 13, 14, 15, 16, 17, 18, 19]
      [(2, 10), (2, 10)]
      = [SendEvt.ff, SendEvt.fc, SendEvt.cf 1, SendEvt.fc, SendEvt.cf 2] := by
    simp [multiFrameTrace, multiFrameLoop]
  rw [h]
  decide

/-- Concatenating the payloads of the write operations of one sector yields
exactly the sector data that was chunked. -/
theorem writtenBytes_writeOps : ∀ (n : Nat) (l : List Nat) (bs addr : Nat),
    l.length ≤ n → bs ≠ 0 → writtenBytes (writeOps bs addr l) = l := by
  intro n
  induction n with
  | zero =>
    intro l bs addr h1 h2
    have hl : l = [] := List.eq_nil_of_length_eq_zero (Nat.le_zero.mp h1)
    subst hl
    rw [writeOps, if_pos (Or.inr rfl)]
    rfl
  | succ n ih =>
    intro l bs addr h1 h2
    by_cases hl : l = []
    · subst hl
      rw [writeOps, if_pos (Or.inr rfl)]
      rfl
    · rw [writeOps, if_neg (by simp [h2, hl])]
      have h0 : 0 < l.length := List.length_pos.mpr hl
      have hbs : 0 < bs := Nat.pos_of_ne_zero h2
      simp only [writtenBytes, List.flatMap_cons]
      have hrec := ih (l.drop bs) bs (addr + bs) (by simp [List.length_drop]; omega) h2
      simp only [writtenBytes] at hrec
      rw [hrec]
      exact List.take_append_drop bs l

/-- A memory read returns the expected bytes when the memory agrees with
them pointwise. -/
theorem readMem_agree (mem : Nat → Nat) (addr : Nat) (l : List Nat)
    (h : ∀ i < l.length, mem (addr + i) = l.getD i 0) :
    readMem mem addr l.length = l := by
  apply List.ext_getElem
  · simp [readMem]
  · intro i h1 h2
    simp only [readMem, List.getElem_map, List.getElem_range]
    have := h i h2
    rw [List.getD_eq_getElem?_getD, List.getElem?_eq_getElem h2] at this
    simpa using this

/-- The verification loop succeeds on any block size when the memory agrees
with the expected bytes pointwise. -/
theorem verifySectorBlocks_of_agree : ∀ (n : Nat) (l : List Nat) (bs addr : Nat) (mem : Nat → Nat),
    l.length ≤ n → (∀ i < l.length, mem (addr + i) = l.getD i 0) →
    verifySectorBlocks mem bs addr l = true := by
  intro n
  induction n with
  | zero =>
    intro l bs addr mem h1 h2
    have hl : l = [] := List.eq_nil_of_length_eq_zero (Nat.le_zero.mp h1)
    subst hl
    rw [verifySectorBlocks, if_pos (Or.inr rfl)]
  | succ n ih =>
    intro l bs addr mem h1 h2
    by_cases hg : bs = 0 ∨ l = []
    · rw [verifySectorBlocks, if_pos hg]
    · rw [verifySectorBlocks, if_neg hg]
      rw [not_or] at hg
      have h0 : 0 < l.length := List.length_pos.mpr hg.2
      have hbs : 0 < bs := Nat.pos_of_ne_zero hg.1
      have htake : readMem mem addr (l.take bs).length = l.take bs := by
        apply readMem_agree
        intro i hi
        simp only [List.length_take] at hi
        rw [List.getD_eq_getElem?_getD, List.getElem?_take_of_lt (by omega)]
        rw [← List.getD_eq_getElem?_getD]
        exact h2 i (by omega)
      have hdrop : verifySectorBlocks mem bs (addr + bs) (l.drop bs) = true := by
        apply ih (l.drop bs) bs (addr + bs) mem (by simp [List.length_drop]; omega)
        intro i hi
        simp only [List.length_drop] at hi
        rw [List.getD_eq_getElem?_getD, List.getElem?_drop]
        rw [← List.getD_eq_getElem?_getD]
        rw [show addr + bs + i = addr + (bs + i) from by omega]
        exact h2 (bs + i) (by omega)
      rw [htake]
      simp [hdrop]

/-- Claim C8 (amended): a sector that begins before the end of the flash
file has its slice right-padded with `0xFF` to the sector size (the padded
data has exactly the sector's length), the write loop writes exactly that
padded data, and the verification — which walks the very same slicing and
padding — succeeds whenever the ECU contents equal the padded data; sectors
whose start offset lies at or beyond the end of the file are skipped
entirely (neither written nor verified). -/
theorem c8_padding_written_and_verified (m : MemoryMap) (data : List Nat) (mem : Nat → Nat)
    (hmem : ∀ s ∈ m.sectors, s.protected_flag = false →
      s.start - m.flash_start < data.length →
      ∀ i < s.size, mem (s.start + i) = (paddedSectorData m.flash_start data s).getD i 0) :
    verifyFlash mem m data = true
    ∧ (∀ s : Sector, (paddedSectorData m.flash_start data s).length = s.size)
    ∧ (∀ (bs addr : Nat) (l : List Nat), bs ≠ 0 → writtenBytes (writeOps bs addr l) = l) := by
  refine ⟨?_, fun s => paddedSectorData_length m.flash_start data s,
    fun bs addr l hbs => writtenBytes_writeOps l.length l bs addr (le_refl _) hbs⟩
  rw [verifyFlash, List.all_eq_true]
  intro s hs
  by_cases hp : s.protected_flag
  · simp [hp]
  · rw [if_neg hp]
    by_cases hskip : data.length ≤ s.start - m.flash_start
    · rw [if_pos hskip]
    · rw [if_neg hskip]
      apply verifySectorBlocks_of_agree (paddedSectorData m.flash_start data s).length
        _ _ _ _ (le_refl _)
      rw [paddedSectorData_length]
      exact hmem s hs (by simpa using hp) (by omega)

/-- Witness for C8 (amended): a two-byte sector map with a one-byte file —
the slice `[5]` is padded to `[5, 0xFF]` and a memory holding exactly those
bytes verifies. -/
theorem c8_padding_written_and_verified_witness :
    verifyFlash (fun a => List.getD [5, 0xFF] a 0)
      ⟨0, 4, 2, [⟨"a", 0, 2, false⟩], "UDS", "crc", 4, 1, true⟩ [5] = true
    ∧ (∀ s : Sector, (paddedSectorData 0 [5] s).length = s.size)
    ∧ (∀ (bs addr : Nat) (l : List Nat), bs ≠ 0 → writtenBytes (writeOps bs addr l) = l) :=
  c8_padding_written_and_verified ⟨0, 4, 2, [⟨"a", 0, 2, false⟩], "UDS", "crc", 4, 1, true⟩
    [5] (fun a => List.getD [5, 0xFF] a 0) (by decide)

/-- Counterexample for C8 as stated: with the MSD80 map and a one-byte flash
file, the non-protected Calibration sector (64 KiB, starting at file offset
0x10000) is skipped outright — `flash_ecu` dispatches no erase and no write
at all — rather than being written as a `0xFF`-padded image as the claim
requires for every non-protected sector of a short file. -/
theorem c8_counterexample :
    flashOps MSD80_MAP [0x42] = []
    ∧ (MSD80_MAP.sectors.getD 1 ⟨"", 0, 0, true⟩).protected_flag = false
    ∧ 0 < (MSD80_MAP.sectors.getD 1 ⟨"", 0, 0, true⟩).size := by
  refine ⟨?_, by decide, by decide⟩
  decide

/-- Reassembling the consecutive frames the sender emits recovers the
remaining payload: the receive loop accepts each frame (matching type and
sequence number), accumulates seven bytes per frame, and trims the final
padding with `response_data[:length]`. -/
theorem recvConsecutive_consecFrames :
    ∀ (n : Nat) (rest : List Nat) (seq : Nat) (acc : List Nat) (len : Nat),
    rest.length ≤ n → seq < 16 → len = acc.length + rest.length →
    recvConsecutive (consecFrames seq rest) seq acc len = some (acc ++ rest) := by
  intro n
  induction n with
  | zero =>
    intro rest seq acc len hn hseq hlen
    have h0 : rest = [] := List.eq_nil_of_length_eq_zero (Nat.le_zero.mp hn)
    subst h0
    rw [show consecFrames seq [] = [] from by simp [consecFrames]]
    rw [recvConsecutive, if_pos (by simp at hlen; omega)]
    rw [show len = acc.length from by simp at hlen; omega, List.take_length]
    simp
  | succ n ih =>
    intro rest seq acc len hn hseq hlen
    rcases rest with _ | ⟨b, tail⟩
    · rw [show consecFrames seq [] = [] from by simp [consecFrames]]
      rw [recvConsecutive, if_pos (by simp at hlen; omega)]
      rw [show len = acc.length from by simp at hlen; omega, List.take_length]
      simp
    · have hsm : seq % 16 = seq := Nat.mod_eq_of_lt hseq
      simp only [List.length_cons] at hlen hn
      rw [consecFrames, recvConsecutive, if_neg (by omega)]
      show (if frameType ((padTo8 ((0x20 + seq % 16) :: (b :: tail).take 7)).headD 0) ≠ 0x20
          then none
          else if (padTo8 ((0x20 + seq % 16) :: (b :: tail).take 7)).headD 0 % 16 ≠ seq
          then none
          else recvConsecutive (consecFrames ((seq + 1) % 16) ((b :: tail).drop 7))
            ((seq + 1) % 16)
            (acc ++ ((padTo8 ((0x20 + seq % 16) :: (b :: tail).take 7)).drop 1).take 7) len)
        = some (acc ++ b :: tail)
      have hhead : (padTo8 ((0x20 + seq % 16) :: (b :: tail).take 7)).headD 0
          = 0x20 + seq := by
        simp [padTo8, hsm]
      rw [hhead]
      rw [if_neg (by unfold frameType; omega)]
      rw [if_neg (by omega)]
      have hdrop1 : (padTo8 ((0x20 + seq % 16) :: (b :: tail).take 7)).drop 1
          = (b :: tail).take 7
            ++ List.replicate (8 - (((b :: tail).take 7).length + 1)) 0 := by
        simp [padTo8]
      have hseq1 : (seq + 1) % 16 < 16 := Nat.mod_lt _ (by omega)
      by_cases hlong : 6 ≤ tail.length
      · -- a full 7-byte frame; no padding contributes
        have htk7 : ((b :: tail).take 7).length = 7 := by
          simp [List.length_take]
          omega
        have happ : ((padTo8 ((0x20 + seq % 16) :: (b :: tail).take 7)).drop 1).take 7
            = (b :: tail).take 7 := by
          rw [hdrop1, htk7]
          simp
        rw [happ]
        have hrec := ih ((b :: tail).drop 7) ((seq + 1) % 16)
          (acc ++ (b :: tail).take 7) len
          (by simp [List.length_drop]; omega) hseq1
          (by simp [List.length_append, List.length_drop, htk7]; omega)
        rw [hrec, List.append_assoc, List.take_append_drop]
      · -- the last, shorter frame: padding is appended then trimmed
        have htk : (b :: tail).take 7 = b :: tail :=
          List.take_of_length_le (by simp; omega)
        have hdrop7 : (b :: tail).drop 7 = [] := by
          apply List.drop_eq_nil_of_le
          simp
          omega
        rw [hdrop7]
        rw [show consecFrames ((seq + 1) % 16) [] = [] from by simp [consecFrames]]
        rw [recvConsecutive, if_pos (by
          rw [hdrop1, htk]
          simp [List.length_append, List.length_replicate]
          omega)]
        rw [hdrop1, htk]
        have hlen2 : len = acc.length + (b :: tail).length := by simp; omega
        rw [hlen2, List.take_append, List.take_take]
        rw [show min (b :: tail).length 7 = (b :: tail).length from by simp; omega]
        rw [List.take_left]

/-- Claim C6: for every payload of length 1..4095, feeding the frames the
ISO-TP send path produces (single frame for up to 7 bytes, first frame plus
consecutive frames otherwise, each right-padded with 0x00 to 8 bytes) into
the ISO-TP receive path reassembles exactly the payload. -/
theorem c6_isotp_roundtrip (p : List Nat) (h1 : 1 ≤ p.length) (h2 : p.length ≤ 4095) :
    isotpReceive (isotpSendFrames p) = some p := by
  by_cases hs : p.length ≤ 7
  · rw [isotpSendFrames, if_pos hs]
    rw [isotpReceive]
    show (if frameType ((padTo8 (p.length :: p)).headD 0) = 0x00
        then some (((padTo8 (p.length :: p)).drop 1).take ((padTo8 (p.length :: p)).headD 0 % 16))
        else if frameType ((padTo8 (p.length :: p)).headD 0) = 0x10
        then recvConsecutive [] 1 (((padTo8 (p.length :: p)).drop 2).take 6)
          (((padTo8 (p.length :: p)).headD 0 % 16) * 256 + (padTo8 (p.length :: p)).getD 1 0)
        else none)
      = some p
    have hhead : (padTo8 (p.length :: p)).headD 0 = p.length := by
      simp [padTo8]
    rw [hhead]
    rw [if_pos (by unfold frameType; omega)]
    have hdrop1 : (padTo8 (p.length :: p)).drop 1
        = p ++ List.replicate (8 - (p.length + 1)) 0 := by
      simp [padTo8]
    rw [hdrop1]
    rw [show p.length % 16 = p.length from Nat.mod_eq_of_lt (by omega)]
    rw [List.take_left]
  · rw [isotpSendFrames, if_neg hs]
    have hq : p.length / 256 % 16 = p.length / 256 := by omega
    rw [isotpReceive]
    show (if frameType (((0x10 + p.length / 256 % 16) :: p.length % 256 :: p.take 6).headD 0)
          = 0x00
        then some ((((0x10 + p.length / 256 % 16) :: p.length % 256 :: p.take 6).drop 1).take
          ((((0x10 + p.length / 256 % 16) :: p.length % 256 :: p.take 6).headD 0) % 16))
        else if frameType (((0x10 + p.length / 256 % 16) :: p.length % 256 :: p.take 6).headD 0)
          = 0x10
        then recvConsecutive (consecFrames 1 (p.drop 6)) 1
          ((((0x10 + p.length / 256 % 16) :: p.length % 256 :: p.take 6).drop 2).take 6)
          (((((0x10 + p.length / 256 % 16) :: p.length % 256 :: p.take 6).headD 0) % 16) * 256
            + ((0x10 + p.length / 256 % 16) :: p.length % 256 :: p.take 6).getD 1 0)
        else none)
      = some p
    rw [show ((0x10 + p.length / 256 % 16) :: p.length % 256 :: p.take 6).headD 0
        = 0x10 + p.length / 256 from by rw [hq]; rfl]
    rw [if_neg (by unfold frameType; omega)]
    rw [if_pos (by unfold frameType; omega)]
    rw [show ((0x10 + p.length / 256 % 16) :: p.length % 256 :: p.take 6).getD 1 0
        = p.length % 256 from rfl]
    rw [show ((0x10 + p.length / 256 % 16) :: p.length % 256 :: p.take 6).drop 2
        = p.take 6 from rfl]
    rw [show (0x10 + p.length / 256) % 16 = p.length / 256 from by omega]
    rw [List.take_take]
    rw [show min 6 6 = 6 from rfl]
    have hres := recvConsecutive_consecFrames (p.drop 6).length (p.drop 6) 1 (p.take 6)
      (p.length / 256 * 256 + p.length % 256) (le_refl _) (by omega)
      (by simp [List.length_take, List.length_drop]; omega)
    rw [hres, List.take_append_drop]

/-- Witness for C6, at a concrete 20-byte payload (first frame plus three
consecutive frames, the last one padded). -/
theorem c6_isotp_roundtrip_witness :
    isotpReceive (isotpSendFrames
        [0, 1, 2, 3, 4, 5, 6, 7, 8, 9, 10, 11, 12, 13, 14, 15, 16, 17, 18, 19])
      = some [0, 1, 2, 3, 4, 5, 6, 7, 8, 9, 10, 11, 12, 13, 14, 15, 16, 17, 18, 19] :=
  c6_isotp_roundtrip [0, 1, 2, 3, 4, 5, 6, 7, 8, 9, 10, 11, 12, 13, 14, 15, 16, 17, 18, 19]
    (by decide) (by decide)
